import Mathlib

/-!
Verification of the Istio sidecar HTTP route translation
(`pilot/pkg/networking/core/v1alpha3/route`, file `route.go`).

The Go source is shallowly embedded: protobuf messages become Lean
structures whose field defaults mirror the proto3 zero values, Go maps
become association lists (one iteration order), nil pointers become
`Option`, and `int32`/`uint32` become `Int`/`Nat` with explicit
wrapping where the source converts.  Parts of the source that no claim
touches (timeouts, retry policies, CORS, hash policies, rewrite) are
omitted from the embedded records; a comment marks each omission.
-/

namespace Istio

/-! ### Input data model (istio.io/api networking/v1alpha3 messages) -/

/-- Proto `Duration` (seconds + nanos); carried through opaquely. -/
structure Duration where
  seconds : Int := 0
  nanos : Int := 0
  deriving DecidableEq, Repr

/-- `networking.StringMatch`: exact / prefix / regex matcher.
`pfx` is the `StringMatch_Prefix` variant. -/
inductive StringMatch where
  | exact (s : String)
  | pfx (s : String)
  | regex (s : String)
  deriving DecidableEq, Repr

/-- `networking.HTTPMatchRequest`.  Go maps (`Headers`, `QueryParams`,
`WithoutHeaders`, `SourceLabels`) are association lists in one
iteration order; `*StringMatch` values may be nil (`Option`).
`Port = 0` is the proto3 "unset" value, as in the source. -/
structure HTTPMatchRequest where
  name : String := ""
  uri : Option StringMatch := none
  scheme : Option StringMatch := none
  method : Option StringMatch := none
  authority : Option StringMatch := none
  headers : List (String × Option StringMatch) := []
  port : Nat := 0
  sourceLabels : List (String × String) := []
  gateways : List String := []
  queryParams : List (String × Option StringMatch) := []
  ignoreUriCase : Bool := false
  withoutHeaders : List (String × Option StringMatch) := []
  sourceNamespace : String := ""
  deriving DecidableEq, Repr

/-- `networking.Destination` (`Port` is a `*PortSelector`, hence `Option`). -/
structure Destination where
  host : String := ""
  subset : String := ""
  port : Option Nat := none
  deriving DecidableEq, Repr

/-- `networking.Headers_HeaderOperations`: set / add maps and remove list. -/
structure HeaderOperations where
  set : List (String × String) := []
  add : List (String × String) := []
  remove : List String := []
  deriving DecidableEq, Repr

/-- `networking.Headers` (request / response operations, each nilable). -/
structure Headers where
  request : Option HeaderOperations := none
  response : Option HeaderOperations := none
  deriving DecidableEq, Repr

/-- `networking.HTTPRouteDestination`: a weighted destination with its
own header mutations. -/
structure HTTPRouteDestination where
  destination : Destination := {}
  weight : Int := 0
  headers : Option Headers := none
  deriving DecidableEq, Repr

/-- `networking.HTTPRedirect`. -/
structure HTTPRedirect where
  uri : String := ""
  authority : String := ""
  redirectCode : Nat := 0
  deriving DecidableEq, Repr

/-- `networking.Percent`: the float64 percentage value is modelled as a
rational number. -/
structure Percent where
  value : Rat := 0
  deriving DecidableEq, Repr

/-- `networking.HTTPFaultInjection_Delay_*` oneof: only `FixedDelay` is
supported by the translator; `exponentialDelay` stands for the other
(unsupported) variant. -/
inductive HTTPDelayType where
  | fixedDelay (d : Duration)
  | exponentialDelay (d : Duration)
  deriving DecidableEq, Repr

/-- `networking.HTTPFaultInjection_Delay`: explicit `Percentage`
(nilable) plus the legacy `Percent` int32 field. -/
structure FaultDelaySpec where
  percent : Int := 0
  percentage : Option Percent := none
  httpDelayType : Option HTTPDelayType := none
  deriving DecidableEq, Repr

/-- `networking.HTTPFaultInjection_Abort_*` oneof: only `HttpStatus`
(int32) is supported by the translator. -/
inductive AbortErrorType where
  | httpStatus (status : Int)
  | grpcStatus (status : String)
  | http2Error (err : String)
  deriving DecidableEq, Repr

/-- `networking.HTTPFaultInjection_Abort`.  The legacy int32 percent
field is included (the spec says abort falls back to it); the
translator in the source never reads it. -/
structure FaultAbortSpec where
  percent : Int := 0
  percentage : Option Percent := none
  errorType : Option AbortErrorType := none
  deriving DecidableEq, Repr

/-- `networking.HTTPFaultInjection`. -/
structure HTTPFaultInjection where
  delay : Option FaultDelaySpec := none
  abort : Option FaultAbortSpec := none
  deriving DecidableEq, Repr

/-- `networking.HTTPRoute`: one routing rule.  `Match` in the source is
renamed `matchBlocks` (`match` is a Lean keyword).  `Rewrite`,
`Timeout`, `Retries` and `CorsPolicy` are omitted: no claim depends on
them and they do not affect the translated fields modelled here. -/
structure HTTPRoute where
  name : String := ""
  matchBlocks : List HTTPMatchRequest := []
  route : List HTTPRouteDestination := []
  redirect : Option HTTPRedirect := none
  fault : Option HTTPFaultInjection := none
  mirror : Option Destination := none
  mirrorPercent : Option Nat := none
  mirrorPercentage : Option Percent := none
  headers : Option Headers := none
  deriving DecidableEq, Repr

/-! ### Registry / proxy model (model.Service, model.Proxy) -/

/-- `model.Port`: only the port number is relevant to the translator. -/
structure ServicePort where
  port : Nat
  deriving DecidableEq, Repr

/-- `model.Service`: registry entry (fields used by the translator). -/
structure Service where
  hostname : String := ""
  ports : List ServicePort := []
  deriving DecidableEq, Repr

/-- `model.NodeMetadata`: proxy labels and namespace (the `Namespace`
field is renamed, `namespace` is a Lean keyword). -/
structure NodeMetadata where
  labels : List (String × String) := []
  namespaceName : String := ""
  deriving DecidableEq, Repr

/-- `model.Proxy` (fields used by the translator). -/
structure Proxy where
  metadata : NodeMetadata := {}
  deriving DecidableEq, Repr

/-! ### Output data model (Envoy route.Route and friends) -/

/-- `envoy type.FractionalPercent` denominators used by the source. -/
inductive FpDenominator where
  | hundred
  | tenThousand
  | million
  deriving DecidableEq, Repr

/-- `envoy type.FractionalPercent`. -/
structure FractionalPercent where
  numerator : Nat
  denominator : FpDenominator
  deriving DecidableEq, Repr

/-- `envoy core.RuntimeFractionalPercent` (only the default value is set
by the source). -/
structure RuntimeFractionalPercent where
  defaultValue : FractionalPercent
  deriving DecidableEq, Repr

/-- `envoy core.HeaderValue`. -/
structure HeaderValue where
  key : String
  value : String
  deriving DecidableEq, Repr

/-- `envoy core.HeaderValueOption`: a header mutation with its append
flag (`Append` false = set/overwrite, true = append). -/
structure HeaderValueOption where
  header : HeaderValue
  append : Bool
  deriving DecidableEq, Repr

/-- `envoy route.HeaderMatcher` specifier variants produced by the
source (`pfxMatch` is `PrefixMatch`). -/
inductive HeaderMatchSpec where
  | presentMatch
  | exactMatch (s : String)
  | pfxMatch (s : String)
  | safeRegexMatch (s : String)
  deriving DecidableEq, Repr

/-- `envoy route.HeaderMatcher`. -/
structure HeaderMatcher where
  name : String
  spec : HeaderMatchSpec
  invertMatch : Bool := false
  deriving DecidableEq, Repr

/-- `envoy route.QueryParameterMatcher` string-match variants produced
by the source. -/
inductive QueryParamStringMatch where
  | exact (s : String)
  | safeRegex (s : String)
  deriving DecidableEq, Repr

/-- `envoy route.QueryParameterMatcher` (`none` = specifier left unset,
which the source does for a prefix or nil input matcher). -/
structure QueryParameterMatcher where
  name : String
  stringMatch : Option QueryParamStringMatch := none
  deriving DecidableEq, Repr

/-- `envoy route.RouteMatch` path specifier (`pathPfx` is
`RouteMatch_Prefix`, `pathExact` is `RouteMatch_Path`). -/
inductive PathSpec where
  | pathPfx (s : String)
  | pathExact (s : String)
  | safeRegex (s : String)
  deriving DecidableEq, Repr

/-- `envoy route.RouteMatch`.  `caseSensitive` is `none` when the source
leaves the proto field nil (the no-match-block default route). -/
structure RouteMatch where
  pathSpecifier : PathSpec
  caseSensitive : Option Bool := none
  headers : List HeaderMatcher := []
  queryParameters : List QueryParameterMatcher := []
  deriving DecidableEq, Repr

/-- `envoy route.WeightedCluster_ClusterWeight` with its per-cluster
header mutation lists. -/
structure ClusterWeight where
  name : String
  weight : Nat
  requestHeadersToAdd : List HeaderValueOption := []
  requestHeadersToRemove : List String := []
  responseHeadersToAdd : List HeaderValueOption := []
  responseHeadersToRemove : List String := []
  deriving DecidableEq, Repr

/-- `envoy route.RouteAction` cluster specifier: single cluster or
weighted cluster list. -/
inductive ClusterSpecifier where
  | cluster (name : String)
  | weightedClusters (clusters : List ClusterWeight)
  deriving DecidableEq, Repr

/-- `envoy route.RouteAction_RequestMirrorPolicy`. -/
structure MirrorPolicy where
  cluster : String
  runtimeFraction : RuntimeFractionalPercent
  traceSampled : Bool
  deriving DecidableEq, Repr

/-- `envoy route.RouteAction` (forward action).  `Timeout`,
`RetryPolicy`, `Cors`, `HashPolicy` and the rewrite fields are omitted:
no claim depends on them. -/
structure RouteAction where
  clusterSpecifier : ClusterSpecifier
  requestMirrorPolicies : List MirrorPolicy := []
  deriving DecidableEq, Repr

/-- `envoy route.RedirectAction` response codes supported by the
source. -/
inductive RedirectResponseCode where
  | movedPermanently
  | found
  | seeOther
  | temporaryRedirect
  | permanentRedirect
  deriving DecidableEq, Repr

/-- `envoy route.RedirectAction` (fields set by the source). -/
structure RedirectAction where
  hostRedirect : String
  pathRedirect : String
  responseCode : RedirectResponseCode
  deriving DecidableEq, Repr

/-- `envoy fault.FaultDelay` as built by the source: the percentage and
the fixed delay (the only delay variant the source emits). -/
structure FaultDelay where
  percentage : Option FractionalPercent
  fixedDelay : Duration
  deriving DecidableEq, Repr

/-- `envoy fault.FaultAbort` as built by the source: optional percentage
and the HTTP status (the only abort variant the source emits). -/
structure FaultAbort where
  percentage : Option FractionalPercent
  httpStatus : Nat
  deriving DecidableEq, Repr

/-- `envoy fault.HTTPFault`. -/
structure HTTPFault where
  delay : Option FaultDelay
  abort : Option FaultAbort
  deriving DecidableEq, Repr

/-- `envoy route.Route` action: a redirect (whose payload the source
leaves nil for an unsupported redirect code) or a forward action. -/
inductive RouteActionSpec where
  | redirect (action : Option RedirectAction)
  | forward (action : RouteAction)
  deriving DecidableEq, Repr

/-- `envoy route.Route`: the translated route.  `Match` is renamed
`rMatch` (`match` is a Lean keyword).  `perFilterFault` models the
`TypedPerFilterConfig[wellknown.Fault]` entry: the outer `Option` is
whether the entry is written at all, the inner one is the translated
fault message it carries (nil when `translateFault` returns nil).
`Metadata` and `Decorator` (trace strings) are omitted: no claim
depends on them. -/
structure Route where
  name : String
  rMatch : RouteMatch
  requestHeadersToAdd : List HeaderValueOption := []
  responseHeadersToAdd : List HeaderValueOption := []
  requestHeadersToRemove : List String := []
  responseHeadersToRemove : List String := []
  action : RouteActionSpec
  perFilterFault : Option (Option HTTPFault) := none
  deriving DecidableEq, Repr

/-! ### Integer conversions (Go int32/uint32 casts) -/

/-- Go `uint32(i)` on an `int32`/`int` value: wrap into `[0, 2^32)`. -/
def uint32ofInt (i : Int) : Nat :=
  (i % 4294967296).toNat

/-- Go `int32(n)` on a `uint32` value: wrap into `[-2^31, 2^31)`. -/
def int32ofNat (n : Nat) : Int :=
  if n % 4294967296 < 2147483648 then (n % 4294967296 : Nat)
  else (n % 4294967296 : Nat) - 4294967296

/-- Go `uint32(f)` on a float modelled as a rational: truncation
(floor for the nonnegative values that occur) then wrap. -/
def uint32ofRat (q : Rat) : Nat :=
  (q.floor % 4294967296).toNat

/-! ### Percent translation -/

/-- `translatePercentToFractionalPercent`: numerator is
`uint32(p.Value * 10000)` over a MILLION denominator. -/
def translatePercentToFractionalPercent (p : Percent) : FractionalPercent :=
  { numerator := uint32ofRat (p.value * 10000), denominator := .million }

/-- `translateIntegerToFractionalPercent`: numerator is `uint32(p)`
over a HUNDRED denominator. -/
def translateIntegerToFractionalPercent (p : Int) : FractionalPercent :=
  { numerator := uint32ofInt p, denominator := .hundred }

/-! ### Cluster name encoding -/

/-- Modelled from the spec: `model.BuildSubsetKey` (the Name & Cluster
Encoder of section 4.1) is not under src; the spec asks for a
deterministic, injective encoding of (direction, subset, hostname,
port), realised here in the istio wire format
`direction|port|subset|hostname`. -/
def BuildSubsetKey (direction : String) (subset : String) (hostname : String) (port : Nat) : String :=
  direction ++ "|" ++ toString port ++ "|" ++ subset ++ "|" ++ hostname

/-- `GetDestinationCluster`: explicit destination port if given, else
the single service port if the resolved service has exactly one, else
the listener port. -/
def GetDestinationCluster (destination : Destination) (service : Option Service)
    (listenerPort : Nat) : String :=
  let port : Nat :=
    match destination.port with
    | some n => n
    | none =>
      match service with
      | some svc =>
        match svc.ports with
        | [p] => p.port
        | _ => listenerPort
      | none => listenerPort
  BuildSubsetKey "outbound" destination.subset destination.host port

/-! ### Source matching -/

/-- Modelled from the spec: `labels.Instance.IsSupersetOf`
(istio pkg/config/labels, not under src).  Per the spec the
source-label filter admits the proxy iff the proxy's label map contains
every required key/value pair. -/
def labelsSupersetOf (proxyLabels : List (String × String))
    (required : List (String × String)) : Bool :=
  required.all (fun kv => proxyLabels.contains kv)

/-- `sourceMatchHTTP`: gateway filter first (when the match lists
gateways, only gateway membership decides), else source-label superset
plus source-namespace check.  The proxy labels are a collection; the
source always passes the singleton `labels.Collection{node.Metadata.Labels}`,
so the collection-level check is an `any` over its members. -/
def sourceMatchHTTP (m : Option HTTPMatchRequest)
    (proxyLabels : List (List (String × String)))
    (gatewayNames : String → Bool) (proxyNamespace : String) : Bool :=
  match m with
  | none => true
  | some mm =>
    if mm.gateways.length > 0 then
      mm.gateways.any gatewayNames
    else if proxyLabels.any (fun inst => labelsSupersetOf inst mm.sourceLabels) then
      mm.sourceNamespace == "" || mm.sourceNamespace == proxyNamespace
    else
      false

/-- The destination-port guard of `translateRoute`:
`match != nil && match.Port != 0 && match.Port != uint32(port)`. -/
def matchDeclaredPortMismatch (m : Option HTTPMatchRequest) (port : Nat) : Bool :=
  match m with
  | some mm => mm.port != 0 && mm.port != port
  | none => false

/-! ### Header matchers -/

/-- Reserved Envoy pseudo-header names. -/
def HeaderMethod : String := ":method"

/-- Reserved Envoy pseudo-header name for the authority. -/
def HeaderAuthority : String := ":authority"

/-- Reserved Envoy pseudo-header name for the scheme. -/
def HeaderScheme : String := ":scheme"

/-- `isCatchAllHeaderMatch`: nil matcher or the full-wildcard regex. -/
def isCatchAllHeaderMatch (input : Option StringMatch) : Bool :=
  match input with
  | none => true
  | some (.regex r) => r == "*"
  | some _ => false

/-- `translateHeaderMatch`: a catch-all matcher degenerates to
"header present"; otherwise the variant maps across directly. -/
def translateHeaderMatch (name : String) (input : Option StringMatch) : HeaderMatcher :=
  if isCatchAllHeaderMatch input then
    { name := name, spec := .presentMatch }
  else
    match input with
    | some (.exact s) => { name := name, spec := .exactMatch s }
    | some (.pfx s) => { name := name, spec := .pfxMatch s }
    | some (.regex s) => { name := name, spec := .safeRegexMatch s }
    | none => { name := name, spec := .presentMatch }

/-- `translateQueryParamMatch`: exact and regex map across; a prefix or
nil matcher leaves the specifier unset. -/
def translateQueryParamMatch (name : String) (input : Option StringMatch) : QueryParameterMatcher :=
  match input with
  | some (.exact s) => { name := name, stringMatch := some (.exact s) }
  | some (.regex s) => { name := name, stringMatch := some (.safeRegex s) }
  | _ => { name := name, stringMatch := none }

/-- Order on header matchers used for the deterministic header sort in
`translateRouteMatch` (`sort.Slice` by `Name`). -/
def headerMatcherNameLE (a b : HeaderMatcher) : Prop := a.name ≤ b.name

instance : DecidableRel headerMatcherNameLE := fun a b =>
  inferInstanceAs (Decidable (a.name ≤ b.name))

/-- `translateRouteMatch`: default prefix `/`; header and
without-header matchers (the latter inverted), sorted by name; URI
specifier; case sensitivity; method/authority/scheme as pseudo-header
matchers appended after the sort, exactly as in the source; query
parameters.  The `node` argument of the source only selects the regex
engine constant and is dropped here. -/
def translateRouteMatch (input : Option HTTPMatchRequest) : RouteMatch :=
  match input with
  | none => { pathSpecifier := .pathPfx "/" }
  | some m =>
    let hdrs :=
      m.headers.map (fun nv => translateHeaderMatch nv.1 nv.2)
        ++ m.withoutHeaders.map (fun nv =>
            { translateHeaderMatch nv.1 nv.2 with invertMatch := true })
    let hdrs := List.insertionSort headerMatcherNameLE hdrs
    let path : PathSpec :=
      match m.uri with
      | some (.exact s) => .pathExact s
      | some (.pfx s) => .pathPfx s
      | some (.regex s) => .safeRegex s
      | none => .pathPfx "/"
    let hdrs := hdrs
      ++ (match m.method with
          | some sm => [translateHeaderMatch HeaderMethod (some sm)]
          | none => [])
      ++ (match m.authority with
          | some sm => [translateHeaderMatch HeaderAuthority (some sm)]
          | none => [])
      ++ (match m.scheme with
          | some sm => [translateHeaderMatch HeaderScheme (some sm)]
          | none => [])
    { pathSpecifier := path,
      caseSensitive := some (!m.ignoreUriCase),
      headers := hdrs,
      queryParameters := m.queryParams.map (fun nv => translateQueryParamMatch nv.1 nv.2) }

/-! ### Header mutation translation -/

/-- Order on header mutations used by `sort.Stable(SortHeaderValueOption ...)`:
compare by header key.  The nil-entry branches of the source's `Less`
are unreachable for the lists built by `translateAppendHeaders`, whose
entries always carry a header. -/
def headerKeyLE (a b : HeaderValueOption) : Prop := a.header.key ≤ b.header.key

instance : DecidableRel headerKeyLE := fun a b =>
  inferInstanceAs (Decidable (a.header.key ≤ b.header.key))

instance : IsTotal HeaderValueOption headerKeyLE :=
  ⟨fun a b => le_total a.header.key b.header.key⟩

instance : IsTrans HeaderValueOption headerKeyLE :=
  ⟨fun _ _ _ hab hbc => le_trans hab hbc⟩

/-- `translateAppendHeaders`: turn a set/add map into mutation entries
with the given append flag, then stable-sort by header key. -/
def translateAppendHeaders (headers : List (String × String)) (appendFlag : Bool) :
    List HeaderValueOption :=
  if headers.isEmpty then []
  else
    List.insertionSort headerKeyLE
      (headers.map (fun kv => { header := { key := kv.1, value := kv.2 }, append := appendFlag }))

/-- The four mutation lists computed by `translateHeadersOperations`. -/
structure HeadersOperationsResult where
  requestHeadersToAdd : List HeaderValueOption
  responseHeadersToAdd : List HeaderValueOption
  requestHeadersToRemove : List String
  responseHeadersToRemove : List String
  deriving DecidableEq, Repr

/-- Nil-safe getter chain `headers.GetRequest()`. -/
def getRequestOps (h : Option Headers) : Option HeaderOperations := h.bind (·.request)

/-- Nil-safe getter chain `headers.GetResponse()`. -/
def getResponseOps (h : Option Headers) : Option HeaderOperations := h.bind (·.response)

/-- Nil-safe `ops.GetSet()` (nil map becomes the empty list). -/
def getSet (ops : Option HeaderOperations) : List (String × String) :=
  (ops.map (·.set)).getD []

/-- Nil-safe `ops.GetAdd()`. -/
def getAdd (ops : Option HeaderOperations) : List (String × String) :=
  (ops.map (·.add)).getD []

/-- Nil-safe `ops.GetRemove()`. -/
def getRemove (ops : Option HeaderOperations) : List String :=
  (ops.map (·.remove)).getD []

/-- `translateHeadersOperations`: set entries (append=false) then add
entries (append=true), each list sorted by `translateAppendHeaders`;
remove lists copied verbatim. -/
def translateHeadersOperations (headers : Option Headers) : HeadersOperationsResult :=
  let req := getRequestOps headers
  let resp := getResponseOps headers
  { requestHeadersToAdd :=
      translateAppendHeaders (getSet req) false ++ translateAppendHeaders (getAdd req) true,
    responseHeadersToAdd :=
      translateAppendHeaders (getSet resp) false ++ translateAppendHeaders (getAdd resp) true,
    requestHeadersToRemove := getRemove req,
    responseHeadersToRemove := getRemove resp }

/-! ### Mirror percentage -/

/-- `mirrorPercent`: the newer `MirrorPercentage` field wins; a present
value is used only when positive (explicit zero disables mirroring);
with neither field present the mirror runs at 100 percent. -/
def mirrorPercent (rule : HTTPRoute) : Option RuntimeFractionalPercent :=
  match rule.mirrorPercentage with
  | some p =>
    if 0 < p.value then
      some { defaultValue := translatePercentToFractionalPercent p }
    else
      none
  | none =>
    match rule.mirrorPercent with
    | some n =>
      if 0 < n then
        some { defaultValue := translateIntegerToFractionalPercent (int32ofNat n) }
      else
        none
    | none =>
      some { defaultValue := translateIntegerToFractionalPercent 100 }

/-- The `RequestMirrorPolicies` list built by `translateRoute`: present
only when the rule has a mirror destination and `mirrorPercent` yields
a fraction. -/
def mirrorPolicies (rule : HTTPRoute) (serviceRegistry : String → Option Service)
    (port : Nat) : List MirrorPolicy :=
  match rule.mirror with
  | some d =>
    match mirrorPercent rule with
    | some mp =>
      [{ cluster := GetDestinationCluster d (serviceRegistry d.host) port,
         runtimeFraction := mp, traceSampled := false }]
    | none => []
  | none => []

/-! ### Fault injection translation -/

/-- The delay block of `translateFault`: percentage from the explicit
field, else from the legacy integer percent; any delay variant other
than a fixed delay drops the whole delay sub-policy. -/
def translateFaultDelay (delay : Option FaultDelaySpec) : Option FaultDelay :=
  match delay with
  | none => none
  | some d =>
    let pct : FractionalPercent :=
      match d.percentage with
      | some p => translatePercentToFractionalPercent p
      | none => translateIntegerToFractionalPercent d.percent
    match d.httpDelayType with
    | some (.fixedDelay dur) => some { percentage := some pct, fixedDelay := dur }
    | _ => none

/-- The abort block of `translateFault`: percentage only from the
explicit field (the source never reads the legacy integer percent of
the abort); any abort variant other than an HTTP status drops the
whole abort sub-policy. -/
def translateFaultAbort (abort : Option FaultAbortSpec) : Option FaultAbort :=
  match abort with
  | none => none
  | some a =>
    let pct : Option FractionalPercent := a.percentage.map translatePercentToFractionalPercent
    match a.errorType with
    | some (.httpStatus s) => some { percentage := pct, httpStatus := uint32ofInt s }
    | _ => none

/-- `translateFault`: nil when both sub-policies end up disabled. -/
def translateFault (fault : Option HTTPFaultInjection) : Option HTTPFault :=
  match fault with
  | none => none
  | some f =>
    let delay := translateFaultDelay f.delay
    let abort := translateFaultAbort f.abort
    if delay = none ∧ abort = none then none
    else some { delay := delay, abort := abort }

/-! ### Weighted destinations -/

/-- The `ClusterWeight` record built for one destination with an
explicit output weight, carrying the destination's own header
mutations. -/
def clusterWeightOf (serviceRegistry : String → Option Service) (port : Nat)
    (w : Int) (dst : HTTPRouteDestination) : ClusterWeight :=
  let ops := translateHeadersOperations dst.headers
  { name := GetDestinationCluster dst.destination (serviceRegistry dst.destination.host) port,
    weight := uint32ofInt w,
    requestHeadersToAdd := ops.requestHeadersToAdd,
    requestHeadersToRemove := ops.requestHeadersToRemove,
    responseHeadersToAdd := ops.responseHeadersToAdd,
    responseHeadersToRemove := ops.responseHeadersToRemove }

/-- One iteration of the destination loop of `translateRoute`: a
zero-weight destination is skipped unless it is the only declared
destination, in which case its weight becomes 100. -/
def destClusterWeight (routeLen : Nat) (serviceRegistry : String → Option Service)
    (port : Nat) (dst : HTTPRouteDestination) : Option ClusterWeight :=
  if dst.weight = 0 ∧ routeLen ≠ 1 then none
  else some (clusterWeightOf serviceRegistry port
    (if dst.weight = 0 then 100 else dst.weight) dst)

/-- The `weighted` list of `translateRoute` (the per-destination
`HashPolicy` accumulation of the source is omitted: no claim depends
on it). -/
def buildWeighted (dsts : List HTTPRouteDestination)
    (serviceRegistry : String → Option Service) (port : Nat) : List ClusterWeight :=
  dsts.filterMap (destClusterWeight dsts.length serviceRegistry port)

/-! ### Route translation -/

/-- The route name: rule name, suffixed with the match block name when
one is present and non-empty. -/
def routeNameFor (rule : HTTPRoute) (m : Option HTTPMatchRequest) : String :=
  match m with
  | some mm => if mm.name != "" then rule.name ++ "." ++ mm.name else rule.name
  | none => rule.name

/-- The redirect action of `translateRoute`: the closed code enum; any
other numeric code yields a nil action (the route itself is still
returned). -/
def translateRedirect (rd : HTTPRedirect) : Option RedirectAction :=
  let code : Option RedirectResponseCode :=
    if rd.redirectCode = 0 ∨ rd.redirectCode = 301 then some .movedPermanently
    else if rd.redirectCode = 302 then some .found
    else if rd.redirectCode = 303 then some .seeOther
    else if rd.redirectCode = 307 then some .temporaryRedirect
    else if rd.redirectCode = 308 then some .permanentRedirect
    else none
  code.map (fun c =>
    { hostRedirect := rd.authority, pathRedirect := rd.uri, responseCode := c })

/-- The body of `translateRoute` after the source/port guards (which
are the only places the source returns nil).  The source's `push` and
`virtualService` arguments only feed the omitted hash-policy lookup
and the trace metadata and are dropped here. -/
def translateRouteBody (rule : HTTPRoute) (m : Option HTTPMatchRequest)
    (port : Nat) (serviceRegistry : String → Option Service) : Route :=
  let ops := translateHeadersOperations rule.headers
  let base : Route :=
    { name := routeNameFor rule m,
      rMatch := translateRouteMatch m,
      requestHeadersToAdd := ops.requestHeadersToAdd,
      responseHeadersToAdd := ops.responseHeadersToAdd,
      requestHeadersToRemove := ops.requestHeadersToRemove,
      responseHeadersToRemove := ops.responseHeadersToRemove,
      action := .redirect none,
      perFilterFault := rule.fault.map (fun f => translateFault (some f)) }
  match rule.redirect with
  | some rd => { base with action := .redirect (translateRedirect rd) }
  | none =>
    let weighted := buildWeighted rule.route serviceRegistry port
    let mirrors := mirrorPolicies rule serviceRegistry port
    match weighted with
    | [cw] =>
      { base with
        requestHeadersToAdd := base.requestHeadersToAdd ++ cw.requestHeadersToAdd,
        requestHeadersToRemove := base.requestHeadersToRemove ++ cw.requestHeadersToRemove,
        responseHeadersToAdd := base.responseHeadersToAdd ++ cw.responseHeadersToAdd,
        responseHeadersToRemove := base.responseHeadersToRemove ++ cw.responseHeadersToRemove,
        action := .forward
          { clusterSpecifier := .cluster cw.name, requestMirrorPolicies := mirrors } }
    | _ =>
      { base with
        action := .forward
          { clusterSpecifier := .weightedClusters weighted, requestMirrorPolicies := mirrors } }

/-- `translateRoute`: nil exactly when the source-label/gateway guard
or the destination-port guard rejects the match block; otherwise the
translated route. -/
def translateRoute (node : Proxy) (rule : HTTPRoute) (m : Option HTTPMatchRequest)
    (port : Nat) (serviceRegistry : String → Option Service)
    (gatewayNames : String → Bool) : Option Route :=
  if !sourceMatchHTTP m [node.metadata.labels] gatewayNames node.metadata.namespaceName then
    none
  else if matchDeclaredPortMismatch m port then
    none
  else
    some (translateRouteBody rule m port serviceRegistry)

/-! ### Rule-to-route expansion -/

/-- `isCatchAllMatch`: the URI predicate is the root prefix or the
full-wildcard regex (an absent URI predicate is not catch-all), with no
header and no query-parameter predicates. -/
def isCatchAllMatch (m : HTTPMatchRequest) : Bool :=
  (match m.uri with
   | some (.pfx p) => p == "/"
   | some (.regex r) => r == "*"
   | _ => false)
  && m.headers.isEmpty && m.queryParams.isEmpty

/-- `catchAllMatch`: the first catch-all match block of the rule, if
any. -/
def catchAllMatch (rule : HTTPRoute) : Option HTTPMatchRequest :=
  rule.matchBlocks.find? isCatchAllMatch

/-- One iteration of the rule loop of
`BuildHTTPRoutesForVirtualService`: the routes the rule contributes
plus whether the loop breaks after it (a rule without match blocks, or
a rule whose first catch-all block translates successfully, ends the
whole loop). -/
def translateRuleRoutes (node : Proxy) (rule : HTTPRoute) (port : Nat)
    (serviceRegistry : String → Option Service) (gatewayNames : String → Bool) :
    List Route × Bool :=
  if rule.matchBlocks.isEmpty then
    ((translateRoute node rule none port serviceRegistry gatewayNames).toList, true)
  else
    match catchAllMatch rule with
    | some m =>
      match translateRoute node rule (some m) port serviceRegistry gatewayNames with
      | some r => ([r], true)
      | none =>
        (rule.matchBlocks.filterMap
          (fun mb => translateRoute node rule (some mb) port serviceRegistry gatewayNames),
         false)
    | none =>
      (rule.matchBlocks.filterMap
        (fun mb => translateRoute node rule (some mb) port serviceRegistry gatewayNames),
       false)

/-- The rule loop of `BuildHTTPRoutesForVirtualService`: rules in
declared order; a breaking rule discards every later rule. -/
def buildHTTPRoutesList (node : Proxy) (rules : List HTTPRoute) (port : Nat)
    (serviceRegistry : String → Option Service) (gatewayNames : String → Bool) :
    List Route :=
  match rules with
  | [] => []
  | rule :: rest =>
    let res := translateRuleRoutes node rule port serviceRegistry gatewayNames
    if res.2 then res.1
    else res.1 ++ buildHTTPRoutesList node rest port serviceRegistry gatewayNames

/-- `BuildHTTPRoutesForVirtualService`: the rule loop, with the final
"no routes matched" error modelled as `none`. -/
def BuildHTTPRoutesForVirtualService (node : Proxy) (vsHttp : List HTTPRoute)
    (port : Nat) (serviceRegistry : String → Option Service)
    (gatewayNames : String → Bool) : Option (List Route) :=
  let out := buildHTTPRoutesList node vsHttp port serviceRegistry gatewayNames
  if out.isEmpty then none else some out

/-! ### Route-set combiner -/

/-- `isCatchAllRoute`: prefix `/` or regex `*` path with no header and
no query-parameter matchers. -/
def isCatchAllRoute (r : Route) : Bool :=
  (match r.rMatch.pathSpecifier with
   | .pathPfx p => p == "/"
   | .safeRegex s => s == "*"
   | _ => false)
  && r.rMatch.headers.isEmpty && r.rMatch.queryParameters.isEmpty

/-- One iteration of the inner loop of `CombineVHostRoutes`: append the
route to the catch-all or the regular accumulator. -/
def combineStep (acc : List Route × List Route) (r : Route) : List Route × List Route :=
  if isCatchAllRoute r then (acc.1, acc.2 ++ [r]) else (acc.1 ++ [r], acc.2)

/-- `CombineVHostRoutes`: concatenate the route sets, keeping catch-all
routes aside, then append them at the end. -/
def CombineVHostRoutes (routeSets : List (List Route)) : List Route :=
  let pair := routeSets.foldl (fun acc routes => routes.foldl combineStep acc) ([], [])
  pair.1 ++ pair.2

/-! ### Concrete fixtures used by witnesses and counterexamples -/

/-- Empty service registry. -/
def regEmpty : String → Option Service := fun _ => none

/-- Proxy holding no gateway names. -/
def gwNone : String → Bool := fun _ => false

/-- A proxy with no labels and the default namespace. -/
def nodeA : Proxy := {}

/-- A destination to `svc.ns` with the given declared weight. -/
def dstW (w : Int) : HTTPRouteDestination :=
  { destination := { host := "svc.ns" }, weight := w }

/-- A match block requiring header `foo: bar`. -/
def mFoo : HTTPMatchRequest := { headers := [("foo", some (.exact "bar"))] }

/-- The empty match block `{}` (no predicates at all). -/
def mEmpty : HTTPMatchRequest := {}

/-- A catch-all match block: URI root prefix, no other predicates. -/
def mCatch : HTTPMatchRequest := { uri := some (.pfx "/") }

/-- The rule of the claimed example: matches `[{header foo=bar}, {}]`. -/
def ruleC1 : HTTPRoute := { matchBlocks := [mFoo, mEmpty], route := [dstW 100] }

/-- A rule whose second match block is a genuine catch-all. -/
def ruleCatch : HTTPRoute := { matchBlocks := [mFoo, mCatch], route := [dstW 100] }

/-- A rule with zero match blocks. -/
def ruleNoMatch : HTTPRoute := { name := "r1", route := [dstW 100] }

/-- A conditional rule declared after `ruleNoMatch`. -/
def ruleOther : HTTPRoute := { name := "r2", matchBlocks := [mFoo], route := [dstW 100] }

/-- Headers spec with `set: \x7bb:2\x7d` and `add: \x7ba:3\x7d` (a set key
sorting after an add key). -/
def hBad : Option Headers :=
  some { request := some { set := [("b", "2")], add := [("a", "3")] } }

/-- The spec example `set: \x7bb:2, a:1\x7d, add: \x7bc:3\x7d` in one map
iteration order. -/
def hSetBA : Option Headers :=
  some { request := some { set := [("b", "2"), ("a", "1")], add := [("c", "3")] } }

/-- The same example in the other map iteration order. -/
def hSetAB : Option Headers :=
  some { request := some { set := [("a", "1"), ("b", "2")], add := [("c", "3")] } }

/-- A fault with an abort carrying only the legacy integer percent. -/
def abortIn : HTTPFaultInjection :=
  { abort := some { percent := 50, errorType := some (.httpStatus 503) } }

/-- A rule mirroring to `mirror.ns` at an explicit 50 percent. -/
def ruleMirror : HTTPRoute :=
  { route := [dstW 100], mirror := some { host := "mirror.ns" },
    mirrorPercentage := some { value := 50 } }

/-! ### C10 -/

/-- C10: an absent (nil) header string-match predicate translates to a
"header present" matcher, exactly as the full-wildcard regex predicate
does. -/
theorem absent_header_predicate_is_present_match (name : String) :
    translateHeaderMatch name none = { name := name, spec := .presentMatch }
    ∧ translateHeaderMatch name none = translateHeaderMatch name (some (.regex "*")) := by
  exact ⟨rfl, rfl⟩

/-! ### C2 -/

/-- The inner loop of `CombineVHostRoutes` partitions one route list
onto the two accumulators, preserving order. -/
theorem foldl_combineStep (routes : List Route) (acc : List Route × List Route) :
    routes.foldl combineStep acc
      = (acc.1 ++ routes.filter (fun r => !isCatchAllRoute r),
         acc.2 ++ routes.filter (fun r => isCatchAllRoute r)) := by
  induction routes generalizing acc with
  | nil => simp
  | cons r rs ih =>
    cases h : isCatchAllRoute r <;>
      simp [List.foldl_cons, List.filter_cons, combineStep, h, ih]

/-- The outer loop of `CombineVHostRoutes` partitions the concatenation
of the route sets, preserving order. -/
theorem foldl_combine_sets (routeSets : List (List Route)) (acc : List Route × List Route) :
    routeSets.foldl (fun acc routes => routes.foldl combineStep acc) acc
      = (acc.1 ++ routeSets.flatten.filter (fun r => !isCatchAllRoute r),
         acc.2 ++ routeSets.flatten.filter (fun r => isCatchAllRoute r)) := by
  induction routeSets generalizing acc with
  | nil => simp
  | cons rs rss ih =>
    rw [List.foldl_cons, foldl_combineStep, ih]
    simp [List.filter_append, List.append_assoc]

/-- C2: combining route sets yields the non-catch-all routes of the
concatenated input (in input order) followed by its catch-all routes
(in input order): a stable partition of the concatenation. -/
theorem CombineVHostRoutes_stable_partition (routeSets : List (List Route)) :
    CombineVHostRoutes routeSets
      = routeSets.flatten.filter (fun r => !isCatchAllRoute r)
        ++ routeSets.flatten.filter (fun r => isCatchAllRoute r) := by
  simp [CombineVHostRoutes, foldl_combine_sets]

/-! ### C3 -/

/-- The destination loop with a declared-destination count other than
one keeps exactly the non-zero-weight destinations, each with its
declared weight. -/
theorem filterMap_destClusterWeight (L : Nat) (hL : L ≠ 1)
    (serviceRegistry : String → Option Service) (port : Nat) :
    ∀ dsts : List HTTPRouteDestination,
      dsts.filterMap (destClusterWeight L serviceRegistry port)
        = (dsts.filter (fun d => d.weight != 0)).map
            (fun d => clusterWeightOf serviceRegistry port d.weight d)
  | [] => rfl
  | d :: dsts => by
    by_cases h : d.weight = 0
    · simp [List.filterMap_cons, List.filter_cons, destClusterWeight, h, hL,
        filterMap_destClusterWeight L hL serviceRegistry port dsts]
    · simp [List.filterMap_cons, List.filter_cons, destClusterWeight, h,
        filterMap_destClusterWeight L hL serviceRegistry port dsts]

/-- C3: a zero-weight destination is dropped from the weighted-cluster
list when it is not the only declared destination; a sole declared
destination with weight zero is kept with its weight normalized to
100. -/
theorem zero_weight_drop_or_normalize :
    (∀ (dsts : List HTTPRouteDestination) (serviceRegistry : String → Option Service)
       (port : Nat), dsts.length ≠ 1 →
      buildWeighted dsts serviceRegistry port
        = (dsts.filter (fun d => d.weight != 0)).map
            (fun d => clusterWeightOf serviceRegistry port d.weight d))
    ∧ (∀ (d : HTTPRouteDestination) (serviceRegistry : String → Option Service)
       (port : Nat), d.weight = 0 →
      buildWeighted [d] serviceRegistry port = [clusterWeightOf serviceRegistry port 100 d]) := by
  constructor
  · intro dsts serviceRegistry port h
    simpa [buildWeighted] using filterMap_destClusterWeight dsts.length h serviceRegistry port dsts
  · intro d serviceRegistry port h
    simp [buildWeighted, destClusterWeight, h]

/-- Witness for C3: destinations with weights 0 and 50 compile to the
single weight-50 cluster; a sole destination with weight 0 compiles to
weight 100. -/
theorem zero_weight_drop_or_normalize_witness :
    buildWeighted [dstW 0, dstW 50] regEmpty 80 = [clusterWeightOf regEmpty 80 50 (dstW 50)]
    ∧ buildWeighted [dstW 0] regEmpty 80 = [clusterWeightOf regEmpty 80 100 (dstW 0)] := by
  constructor
  · have h := zero_weight_drop_or_normalize.1 [dstW 0, dstW 50] regEmpty 80 (by decide)
    rw [h]; rfl
  · exact zero_weight_drop_or_normalize.2 (dstW 0) regEmpty 80 rfl

/-! ### C5 -/

/-- C5: a rule with zero match blocks is translated once with no match
block, contributes at most that single route, and every rule declared
after it contributes nothing. -/
theorem unconditional_rule_stops_processing (node : Proxy) (rule : HTTPRoute)
    (rest : List HTTPRoute) (port : Nat) (serviceRegistry : String → Option Service)
    (gatewayNames : String → Bool) (h : rule.matchBlocks = []) :
    buildHTTPRoutesList node (rule :: rest) port serviceRegistry gatewayNames
      = (translateRoute node rule none port serviceRegistry gatewayNames).toList := by
  simp [buildHTTPRoutesList, translateRuleRoutes, h]

/-- Witness for C5 at a concrete unconditional rule followed by a
conditional one. -/
theorem unconditional_rule_stops_processing_witness :
    buildHTTPRoutesList nodeA [ruleNoMatch, ruleOther] 80 regEmpty gwNone
      = (translateRoute nodeA ruleNoMatch none 80 regEmpty gwNone).toList :=
  unconditional_rule_stops_processing nodeA ruleNoMatch [ruleOther] 80 regEmpty gwNone rfl

/-! ### C1 -/

/-- C1 counterexample: the claimed example — a rule with matches
`[{header foo=bar}, {}]` — compiles to two routes, not one.  The empty
match block has no URI predicate, so `isCatchAllMatch` does not treat
it as catch-all and both blocks are translated. -/
theorem catchall_example_two_routes :
    (BuildHTTPRoutesForVirtualService nodeA [ruleC1] 80 regEmpty gwNone).map List.length
      = some 2
    ∧ (BuildHTTPRoutesForVirtualService nodeA [ruleC1] 80 regEmpty gwNone).map List.length
      ≠ some 1 := by
  constructor
  · rfl
  · intro h
    rw [show (BuildHTTPRoutesForVirtualService nodeA [ruleC1] 80 regEmpty gwNone).map
        List.length = some 2 from rfl] at h
    simp at h

/-- C1 (amended): if the first catch-all match block of a rule (per the
source's definition, which requires an explicit URI predicate of root
prefix or full-wildcard regex and no header/query predicates)
translates successfully, the rule emits exactly that one route, no
route for any other match block, and the rule loop stops. -/
theorem first_catchall_wins (node : Proxy) (rule : HTTPRoute) (port : Nat)
    (serviceRegistry : String → Option Service) (gatewayNames : String → Bool)
    (m : HTTPMatchRequest) (r : Route)
    (hca : catchAllMatch rule = some m)
    (ht : translateRoute node rule (some m) port serviceRegistry gatewayNames = some r) :
    translateRuleRoutes node rule port serviceRegistry gatewayNames = ([r], true)
    ∧ ∀ rest, buildHTTPRoutesList node (rule :: rest) port serviceRegistry gatewayNames = [r] := by
  have hne : rule.matchBlocks.isEmpty = false := by
    cases hmb : rule.matchBlocks with
    | nil => rw [catchAllMatch, hmb] at hca; simp at hca
    | cons a l => rfl
  have h1 : translateRuleRoutes node rule port serviceRegistry gatewayNames = ([r], true) := by
    simp [translateRuleRoutes, hne, hca, ht]
  refine ⟨h1, fun rest => ?_⟩
  simp [buildHTTPRoutesList, h1]

/-- Witness for C1 (amended): a rule whose second block is a genuine
catch-all (URI prefix `/`) emits exactly the catch-all route. -/
theorem first_catchall_wins_witness :
    catchAllMatch ruleCatch = some mCatch
    ∧ translateRuleRoutes nodeA ruleCatch 80 regEmpty gwNone
        = ([translateRouteBody ruleCatch (some mCatch) 80 regEmpty], true) := by
  refine ⟨rfl, ?_⟩
  exact (first_catchall_wins nodeA ruleCatch 80 regEmpty gwNone mCatch
    (translateRouteBody ruleCatch (some mCatch) 80 regEmpty) rfl rfl).1

/-! ### C6 -/

/-- `translateRoute` fails exactly when one of its two guards fires. -/
theorem translateRoute_eq_none_iff_guards (node : Proxy) (rule : HTTPRoute)
    (m : Option HTTPMatchRequest) (port : Nat)
    (serviceRegistry : String → Option Service) (gatewayNames : String → Bool) :
    translateRoute node rule m port serviceRegistry gatewayNames = none ↔
      (sourceMatchHTTP m [node.metadata.labels] gatewayNames node.metadata.namespaceName = false
       ∨ matchDeclaredPortMismatch m port = true) := by
  unfold translateRoute
  cases h1 : sourceMatchHTTP m [node.metadata.labels] gatewayNames node.metadata.namespaceName <;>
    cases h2 : matchDeclaredPortMismatch m port <;> simp [h1, h2]

/-- C6: translation of a match block yields no route iff the match is
present and either its identity filter rejects the proxy — gateway
membership alone when gateways are listed, otherwise the source-label
superset plus source-namespace check — or it declares a destination
port different from the listening port. -/
theorem translateRoute_none_characterization (node : Proxy) (rule : HTTPRoute)
    (m : Option HTTPMatchRequest) (port : Nat)
    (serviceRegistry : String → Option Service) (gatewayNames : String → Bool) :
    translateRoute node rule m port serviceRegistry gatewayNames = none ↔
      ∃ mm, m = some mm ∧
        ((if mm.gateways = [] then
            ¬(labelsSupersetOf node.metadata.labels mm.sourceLabels = true ∧
              (mm.sourceNamespace = "" ∨ mm.sourceNamespace = node.metadata.namespaceName))
          else ¬∃ g ∈ mm.gateways, gatewayNames g = true)
         ∨ (mm.port ≠ 0 ∧ mm.port ≠ port)) := by
  rw [translateRoute_eq_none_iff_guards]
  cases m with
  | none => simp [sourceMatchHTTP, matchDeclaredPortMismatch]
  | some mm =>
    simp only [Option.some.injEq, exists_eq_left']
    by_cases hg : mm.gateways = []
    · by_cases hl : labelsSupersetOf node.metadata.labels mm.sourceLabels = true
      · simp [sourceMatchHTTP, matchDeclaredPortMismatch, hg, hl]
      · simp [sourceMatchHTTP, matchDeclaredPortMismatch, hg, hl]
    · have hlen : 0 < mm.gateways.length := by
        cases hmb : mm.gateways with
        | nil => exact absurd hmb hg
        | cons a l => simp
      simp [sourceMatchHTTP, matchDeclaredPortMismatch, hg, hlen, List.any_eq_true]

/-! ### C7 -/

/-- A successful translation returns exactly the body built after the
two guards. -/
theorem translateRoute_some_body (node : Proxy) (rule : HTTPRoute)
    (m : Option HTTPMatchRequest) (port : Nat)
    (serviceRegistry : String → Option Service) (gatewayNames : String → Bool) (r : Route)
    (hr : translateRoute node rule m port serviceRegistry gatewayNames = some r) :
    r = translateRouteBody rule m port serviceRegistry := by
  unfold translateRoute at hr
  split at hr
  · exact absurd hr (by simp)
  · split at hr
    · exact absurd hr (by simp)
    · exact (Option.some.inj hr).symm

/-- C7: with a forward action, exactly one surviving weighted
destination collapses to a single-cluster specifier with the
destination's header mutations appended to the route's own lists;
otherwise a weighted-cluster list is emitted (each entry already
carrying its own header lists) and the route keeps only its own
mutations. -/
theorem single_survivor_collapses (node : Proxy) (rule : HTTPRoute)
    (m : Option HTTPMatchRequest) (port : Nat) (serviceRegistry : String → Option Service)
    (gatewayNames : String → Bool) (r : Route)
    (hred : rule.redirect = none)
    (hr : translateRoute node rule m port serviceRegistry gatewayNames = some r) :
    (∀ cw, buildWeighted rule.route serviceRegistry port = [cw] →
      r.action = .forward
        { clusterSpecifier := .cluster cw.name,
          requestMirrorPolicies := mirrorPolicies rule serviceRegistry port }
      ∧ r.requestHeadersToAdd
          = (translateHeadersOperations rule.headers).requestHeadersToAdd
            ++ cw.requestHeadersToAdd
      ∧ r.requestHeadersToRemove
          = (translateHeadersOperations rule.headers).requestHeadersToRemove
            ++ cw.requestHeadersToRemove
      ∧ r.responseHeadersToAdd
          = (translateHeadersOperations rule.headers).responseHeadersToAdd
            ++ cw.responseHeadersToAdd
      ∧ r.responseHeadersToRemove
          = (translateHeadersOperations rule.headers).responseHeadersToRemove
            ++ cw.responseHeadersToRemove)
    ∧ (∀ ws, buildWeighted rule.route serviceRegistry port = ws → ws.length ≠ 1 →
      r.action = .forward
        { clusterSpecifier := .weightedClusters ws,
          requestMirrorPolicies := mirrorPolicies rule serviceRegistry port }
      ∧ r.requestHeadersToAdd
          = (translateHeadersOperations rule.headers).requestHeadersToAdd) := by
  have hb := translateRoute_some_body node rule m port serviceRegistry gatewayNames r hr
  subst hb
  constructor
  · intro cw hw
    refine ⟨?_, ?_, ?_, ?_, ?_⟩ <;> simp [translateRouteBody, hred, hw]
  · intro ws hw hlen
    subst hw
    rcases hws : buildWeighted rule.route serviceRegistry port with _ | ⟨c, _ | ⟨c2, l2⟩⟩
    · refine ⟨?_, ?_⟩ <;> simp [translateRouteBody, hred, hws]
    · rw [hws] at hlen
      simp at hlen
    · refine ⟨?_, ?_⟩ <;> simp [translateRouteBody, hred, hws]

/-- Witness for C7: a single 100-weight destination collapses to its
single cluster. -/
theorem single_survivor_collapses_witness :
    (translateRouteBody ruleNoMatch none 80 regEmpty).action
      = .forward
        { clusterSpecifier := .cluster (clusterWeightOf regEmpty 80 100 (dstW 100)).name,
          requestMirrorPolicies := mirrorPolicies ruleNoMatch regEmpty 80 } :=
  ((single_survivor_collapses nodeA ruleNoMatch none 80 regEmpty gwNone
      (translateRouteBody ruleNoMatch none 80 regEmpty) rfl rfl).1
    (clusterWeightOf regEmpty 80 100 (dstW 100)) rfl).1

/-! ### C8 -/

/-- C8: mirror percentage resolution and attachment — the explicit
percentage field wins over the legacy integer field; a positive value
mirrors at that percentage, an explicit zero disables mirroring, and
with no field given mirroring runs at 100 percent; the resulting
fraction (when any) is attached to the forward action for the rule's
mirror destination. -/
theorem mirror_percentage_policy :
    (∀ (rule : HTTPRoute) (p : Percent), rule.mirrorPercentage = some p → 0 < p.value →
      mirrorPercent rule = some { defaultValue := translatePercentToFractionalPercent p })
    ∧ (∀ (rule : HTTPRoute) (p : Percent), rule.mirrorPercentage = some p → p.value = 0 →
      mirrorPercent rule = none)
    ∧ (∀ (rule : HTTPRoute) (n : Nat), rule.mirrorPercentage = none →
      rule.mirrorPercent = some n → 0 < n →
      mirrorPercent rule
        = some { defaultValue := translateIntegerToFractionalPercent (int32ofNat n) })
    ∧ (∀ rule : HTTPRoute, rule.mirrorPercentage = none → rule.mirrorPercent = some 0 →
      mirrorPercent rule = none)
    ∧ (∀ rule : HTTPRoute, rule.mirrorPercentage = none → rule.mirrorPercent = none →
      mirrorPercent rule = some { defaultValue := translateIntegerToFractionalPercent 100 })
    ∧ (∀ (rule : HTTPRoute) (serviceRegistry : String → Option Service) (port : Nat)
        (d : Destination), rule.mirror = some d →
      mirrorPolicies rule serviceRegistry port
        = (mirrorPercent rule).elim []
            (fun mp => [{ cluster := GetDestinationCluster d (serviceRegistry d.host) port,
                          runtimeFraction := mp, traceSampled := false }]))
    ∧ (∀ (node : Proxy) (rule : HTTPRoute) (m : Option HTTPMatchRequest) (port : Nat)
        (serviceRegistry : String → Option Service) (gatewayNames : String → Bool) (r : Route),
      rule.redirect = none →
      translateRoute node rule m port serviceRegistry gatewayNames = some r →
      ∃ a, r.action = .forward a
        ∧ a.requestMirrorPolicies = mirrorPolicies rule serviceRegistry port) := by
  refine ⟨?_, ?_, ?_, ?_, ?_, ?_, ?_⟩
  · intro rule p hp hv
    simp [mirrorPercent, hp, hv]
  · intro rule p hp hv
    simp [mirrorPercent, hp, hv]
  · intro rule n hp hn hv
    simp [mirrorPercent, hp, hn, hv]
  · intro rule hp hn
    simp [mirrorPercent, hp, hn]
  · intro rule hp hn
    simp [mirrorPercent, hp, hn]
  · intro rule serviceRegistry port d hd
    cases hmp : mirrorPercent rule <;> simp [mirrorPolicies, hd, hmp]
  · intro node rule m port serviceRegistry gatewayNames r hred hr
    have hb := translateRoute_some_body node rule m port serviceRegistry gatewayNames r hr
    subst hb
    rcases hws : buildWeighted rule.route serviceRegistry port with _ | ⟨c, _ | ⟨c2, l2⟩⟩
    · refine ⟨{ clusterSpecifier := .weightedClusters [],
                requestMirrorPolicies := mirrorPolicies rule serviceRegistry port }, ?_, rfl⟩
      simp [translateRouteBody, hred, hws]
    · refine ⟨{ clusterSpecifier := .cluster c.name,
                requestMirrorPolicies := mirrorPolicies rule serviceRegistry port }, ?_, rfl⟩
      simp [translateRouteBody, hred, hws]
    · refine ⟨{ clusterSpecifier := .weightedClusters (c :: c2 :: l2),
                requestMirrorPolicies := mirrorPolicies rule serviceRegistry port }, ?_, rfl⟩
      simp [translateRouteBody, hred, hws]

/-- Witness for C8: an explicit 50 percent mirrors at 50 percent, and
the policy lands on the forward action. -/
theorem mirror_percentage_policy_witness :
    mirrorPercent ruleMirror
      = some { defaultValue := translatePercentToFractionalPercent { value := 50 } }
    ∧ ∃ a, (translateRouteBody ruleMirror none 80 regEmpty).action = .forward a
        ∧ a.requestMirrorPolicies = mirrorPolicies ruleMirror regEmpty 80 := by
  constructor
  · exact mirror_percentage_policy.1 ruleMirror { value := 50 } rfl (by norm_num)
  · exact mirror_percentage_policy.2.2.2.2.2.2 nodeA ruleMirror none 80 regEmpty gwNone
      (translateRouteBody ruleMirror none 80 regEmpty) rfl rfl

/-! ### C9 -/

/-- C9 counterexample: an abort with only the legacy integer percent
(50) and an HTTP status translates with an *unset* abort percentage —
the legacy field is not used as a fallback for abort, unlike for
delay. -/
theorem abort_legacy_percent_ignored :
    translateFault (some abortIn)
      = some { delay := none, abort := some { percentage := none, httpStatus := 503 } }
    ∧ (some { delay := none,
              abort := some { percentage := none, httpStatus := 503 } } : Option HTTPFault)
      ≠ some { delay := none,
               abort := some { percentage := some (translateIntegerToFractionalPercent 50),
                               httpStatus := 503 } } := by
  constructor
  · rfl
  · decide

/-- C9 (amended): delay percentage falls back from the explicit field
to the legacy integer field and any non-fixed delay disables the delay
sub-policy; abort percentage comes only from the explicit field (the
legacy integer field is ignored for abort) and any non-HTTP-status
abort disables the abort sub-policy; with both sub-policies disabled no
fault policy is produced at all. -/
theorem translateFault_characterization :
    (∀ (d : FaultDelaySpec) (p : Percent) (dur : Duration),
      d.percentage = some p → d.httpDelayType = some (.fixedDelay dur) →
      translateFaultDelay (some d)
        = some { percentage := some (translatePercentToFractionalPercent p),
                 fixedDelay := dur })
    ∧ (∀ (d : FaultDelaySpec) (dur : Duration),
      d.percentage = none → d.httpDelayType = some (.fixedDelay dur) →
      translateFaultDelay (some d)
        = some { percentage := some (translateIntegerToFractionalPercent d.percent),
                 fixedDelay := dur })
    ∧ (∀ d : FaultDelaySpec, (∀ dur, d.httpDelayType ≠ some (.fixedDelay dur)) →
      translateFaultDelay (some d) = none)
    ∧ (∀ (a : FaultAbortSpec) (s : Int), a.errorType = some (.httpStatus s) →
      translateFaultAbort (some a)
        = some { percentage := a.percentage.map translatePercentToFractionalPercent,
                 httpStatus := uint32ofInt s })
    ∧ (∀ a : FaultAbortSpec, (∀ s, a.errorType ≠ some (.httpStatus s)) →
      translateFaultAbort (some a) = none)
    ∧ (∀ f : HTTPFaultInjection,
      translateFaultDelay f.delay = none → translateFaultAbort f.abort = none →
      translateFault (some f) = none) := by
  refine ⟨?_, ?_, ?_, ?_, ?_, ?_⟩
  · intro d p dur hp ht
    simp [translateFaultDelay, hp, ht]
  · intro d dur hp ht
    simp [translateFaultDelay, hp, ht]
  · intro d hne
    cases ht : d.httpDelayType with
    | none => simp [translateFaultDelay, ht]
    | some t =>
      cases t with
      | fixedDelay dur => exact absurd ht (hne dur)
      | exponentialDelay dur => simp [translateFaultDelay, ht]
  · intro a s he
    simp [translateFaultAbort, he]
  · intro a hne
    cases he : a.errorType with
    | none => simp [translateFaultAbort, he]
    | some t =>
      cases t with
      | httpStatus s => exact absurd he (hne s)
      | grpcStatus s => simp [translateFaultAbort, he]
      | http2Error s => simp [translateFaultAbort, he]
  · intro f hd ha
    simp [translateFault, hd, ha]

/-- Witness for C9 (amended), applied at concrete delay, abort and
fault values. -/
theorem translateFault_characterization_witness :
    translateFaultDelay (some { percentage := some { value := 25 },
                                httpDelayType := some (.fixedDelay { seconds := 5 }) })
      = some { percentage := some (translatePercentToFractionalPercent { value := 25 }),
               fixedDelay := { seconds := 5 } }
    ∧ translateFaultAbort (some { percent := 50, errorType := some (.httpStatus 503) })
      = some { percentage := none, httpStatus := 503 }
    ∧ translateFault (some { delay := some { httpDelayType := none }, abort := none }) = none := by
  refine ⟨?_, ?_, ?_⟩
  · exact translateFault_characterization.1
      { percentage := some { value := 25 }, httpDelayType := some (.fixedDelay { seconds := 5 }) }
      { value := 25 } { seconds := 5 } rfl rfl
  · exact translateFault_characterization.2.2.2.1
      { percent := 50, errorType := some (.httpStatus 503) } 503 rfl
  · exact translateFault_characterization.2.2.2.2.2
      { delay := some { httpDelayType := none }, abort := none }
      (translateFault_characterization.2.2.1 { httpDelayType := none } (fun dur h => by simp at h))
      rfl

/-! ### C4 -/

/-- The mutation entries produced by `translateAppendHeaders` are a
permutation of the input map entries. -/
theorem translateAppendHeaders_perm (m : List (String × String)) (f : Bool) :
    List.Perm ((translateAppendHeaders m f).map (fun o => (o.header.key, o.header.value))) m := by
  unfold translateAppendHeaders
  by_cases h : m.isEmpty
  · rw [List.isEmpty_iff.mp h]
    simp
  · simp only [h, Bool.false_eq_true, if_false]
    refine ((List.perm_insertionSort headerKeyLE _).map _).trans ?_
    rw [List.map_map]
    have hc : ((fun o : HeaderValueOption => (o.header.key, o.header.value)) ∘
        (fun kv : String × String =>
          { header := { key := kv.1, value := kv.2 }, append := f })) = id := by
      funext kv
      rfl
    rw [hc, List.map_id]

/-- C4 (amended): set entries become append=false operations and add
entries append=true operations; each of the two lists is stably sorted
by header key on its own, then they are concatenated set-then-add (the
concatenation itself is not re-sorted); remove lists are copied
verbatim; and the spec example yields add order `a, b, c` under either
map iteration order. -/
theorem headers_operations_translation :
    (∀ h : Option Headers,
      (translateHeadersOperations h).requestHeadersToAdd
        = translateAppendHeaders (getSet (getRequestOps h)) false
          ++ translateAppendHeaders (getAdd (getRequestOps h)) true
      ∧ (translateHeadersOperations h).responseHeadersToAdd
        = translateAppendHeaders (getSet (getResponseOps h)) false
          ++ translateAppendHeaders (getAdd (getResponseOps h)) true
      ∧ (translateHeadersOperations h).requestHeadersToRemove = getRemove (getRequestOps h)
      ∧ (translateHeadersOperations h).responseHeadersToRemove = getRemove (getResponseOps h))
    ∧ (∀ (m : List (String × String)) (f : Bool),
      (translateAppendHeaders m f).all (fun o => o.append == f) = true)
    ∧ (∀ (m : List (String × String)) (f : Bool),
      List.Sorted headerKeyLE (translateAppendHeaders m f))
    ∧ (∀ (m : List (String × String)) (f : Bool),
      List.Perm ((translateAppendHeaders m f).map (fun o => (o.header.key, o.header.value))) m)
    ∧ ((translateHeadersOperations hSetBA).requestHeadersToAdd
        = (translateHeadersOperations hSetAB).requestHeadersToAdd
      ∧ (translateHeadersOperations hSetBA).requestHeadersToAdd.map (fun o => o.header.key)
        = ["a", "b", "c"]) := by
  have hba : ∀ (v w : String) (p q : Bool),
      ¬ headerKeyLE { header := { key := "b", value := v }, append := p }
          { header := { key := "a", value := w }, append := q } := by
    intro v w p q
    simp only [headerKeyLE]
    rw [String.le_iff_toList_le]
    decide
  have hab : ∀ (v w : String) (p q : Bool),
      headerKeyLE { header := { key := "a", value := v }, append := p }
        { header := { key := "b", value := w }, append := q } := by
    intro v w p q
    simp only [headerKeyLE]
    rw [String.le_iff_toList_le]
    decide
  refine ⟨?_, ?_, ?_, translateAppendHeaders_perm, ?_, ?_⟩
  · intro h
    exact ⟨rfl, rfl, rfl, rfl⟩
  · intro m f
    rw [List.all_eq_true]
    intro o ho
    unfold translateAppendHeaders at ho
    by_cases h : m.isEmpty
    · simp [h] at ho
    · simp only [h, Bool.false_eq_true, if_false] at ho
      have hmem := (List.perm_insertionSort headerKeyLE _).mem_iff.mp ho
      obtain ⟨kv, _, hkv⟩ := List.mem_map.mp hmem
      rw [← hkv]
      simp
  · intro m f
    unfold translateAppendHeaders
    by_cases h : m.isEmpty
    · simp [h]
    · simp only [h, Bool.false_eq_true, if_false]
      exact List.sorted_insertionSort headerKeyLE _
  · simp [hSetBA, hSetAB, translateHeadersOperations, getRequestOps, getResponseOps,
      getSet, getAdd, getRemove, translateAppendHeaders, List.insertionSort,
      List.orderedInsert, hba, hab]
  · simp [hSetBA, translateHeadersOperations, getRequestOps, getResponseOps,
      getSet, getAdd, getRemove, translateAppendHeaders, List.insertionSort,
      List.orderedInsert, hba, hab]

/-- C4 counterexample: with `set: \x7bb:2\x7d` and `add: \x7ba:3\x7d` the
concatenated mutation list is `[b, a]`, which is not sorted by header
key — the two lists are sorted individually, not after
concatenation. -/
theorem headers_concat_not_sorted :
    (translateHeadersOperations hBad).requestHeadersToAdd
      = [{ header := { key := "b", value := "2" }, append := false },
         { header := { key := "a", value := "3" }, append := true }]
    ∧ ¬ List.Sorted headerKeyLE
        [({ header := { key := "b", value := "2" }, append := false } : HeaderValueOption),
         { header := { key := "a", value := "3" }, append := true }] := by
  constructor
  · rfl
  · intro hs
    have h := (List.sorted_cons.mp hs).1 _ (List.mem_singleton_self _)
    simp only [headerKeyLE] at h
    rw [String.le_iff_toList_le] at h
    exact absurd h (by decide)

end Istio
